import Mathlib

/-!
Verification of the retrieval core of the finance RAG notebook
(`finance_rag_implementation.ipynb`).

Texts are modelled as lists of characters, so Python string slicing is
`List.take`/`List.drop`.  Python exceptions that the code can raise
implicitly become `Except PyError`.  External collaborators (the Yahoo
Finance fetchers, the sentence-transformer embedder and the OpenAI chat
call) are passed in explicitly, and the orchestrator records the calls it
makes to them in a trace.
-/

namespace FinanceRag

/-- Source texts, questions, chunks and prompts are lists of characters. -/
abbrev Text := List Char

/-- Python exceptions that the notebook code can raise implicitly:
`ValueError` (from `range` with a zero step) and `IndexError` (from
indexing an empty embedding array). -/
inductive PyError where
  | valueError : String → PyError
  | indexError : String → PyError
  deriving DecidableEq

/-- The Python comprehension
`[text[i:i+chunk_size] for i in range(0, len(text), chunk_size)]`
for a positive chunk size written as `k + 1`: emit the first `k + 1`
characters, recurse on the rest, stop on the empty text. -/
def chunk_text_pos (k : Nat) : Text → List Text
  | [] => []
  | c :: rest => ((c :: rest).take (k + 1)) :: chunk_text_pos k ((c :: rest).drop (k + 1))
termination_by t => t.length
decreasing_by simp [List.length_drop]; omega

/-- `chunk_text` from the source.  A zero `chunk_size` makes Python's
`range(0, len(text), chunk_size)` raise `ValueError`; a negative
`chunk_size` makes that range empty, so the comprehension yields `[]`. -/
def chunk_text (text : Text) (chunk_size : Int) : Except PyError (List Text) :=
  if chunk_size = 0 then Except.error (PyError.valueError "range() arg 3 must not be zero")
  else if chunk_size < 0 then Except.ok []
  else Except.ok (chunk_text_pos (chunk_size.toNat - 1) text)

theorem chunk_text_pos_nil (k : Nat) : chunk_text_pos k [] = [] := by
  simp [chunk_text_pos]

theorem chunk_text_pos_eq_nil_iff (k : Nat) (t : Text) :
    chunk_text_pos k t = [] ↔ t = [] := by
  cases t with
  | nil => simp [chunk_text_pos]
  | cons c rest => simp [chunk_text_pos]

theorem chunk_text_pos_join (k : Nat) (t : Text) : (chunk_text_pos k t).flatten = t := by
  induction t using chunk_text_pos.induct k with
  | case1 => simp [chunk_text_pos]
  | case2 c rest ih =>
    rw [chunk_text_pos]
    simp only [List.flatten_cons, ih, List.take_append_drop]

theorem chunk_text_pos_dropLast_length (k : Nat) (t : Text) :
    ∀ l ∈ (chunk_text_pos k t).dropLast, l.length = k + 1 := by
  induction t using chunk_text_pos.induct k with
  | case1 => intro l hl; simp [chunk_text_pos] at hl
  | case2 c rest ih =>
    intro l hl
    rw [chunk_text_pos] at hl
    by_cases hrest : (c :: rest).drop (k + 1) = []
    · rw [hrest, chunk_text_pos_nil] at hl
      simp at hl
    · have hne : chunk_text_pos k ((c :: rest).drop (k + 1)) ≠ [] := by
        simpa [chunk_text_pos_eq_nil_iff] using hrest
      rw [List.dropLast_cons_of_ne_nil hne] at hl
      rcases List.mem_cons.mp hl with h | h
      · subst h
        have hlen : k + 1 ≤ (c :: rest).length := by
          by_contra hcon
          push_neg at hcon
          exact hrest (List.drop_eq_nil_of_le (Nat.le_of_lt hcon))
        simpa [List.length_take] using Nat.min_eq_left hlen
      · exact ih l h

/-- C1: for every text and positive chunk size, `chunk_text` succeeds with a
list of contiguous slices whose in-order concatenation reproduces the text,
in which every chunk except possibly the last has length exactly the chunk
size; and chunking the empty text yields the empty list. -/
theorem chunk_text_spec (text : Text) (chunk_size : Int) (hpos : 0 < chunk_size) :
    ∃ chunks, chunk_text text chunk_size = Except.ok chunks ∧
      chunks.flatten = text ∧
      (∀ l ∈ chunks.dropLast, l.length = chunk_size.toNat) ∧
      chunk_text ([] : Text) chunk_size = Except.ok [] := by
  have h0 : ¬ chunk_size = 0 := by omega
  have h1 : ¬ chunk_size < 0 := by omega
  have htn : chunk_size.toNat - 1 + 1 = chunk_size.toNat := by omega
  refine ⟨chunk_text_pos (chunk_size.toNat - 1) text, ?_, ?_, ?_, ?_⟩
  · simp [chunk_text, h0, h1]
  · exact chunk_text_pos_join _ _
  · intro l hl
    have := chunk_text_pos_dropLast_length (chunk_size.toNat - 1) text l hl
    omega
  · simp [chunk_text, h0, h1, chunk_text_pos_nil]

/-- Witness for C1 at the text "abcde" with chunk size 2. -/
theorem chunk_text_spec_witness :
    ∃ chunks, chunk_text "abcde".toList 2 = Except.ok chunks ∧
      chunks.flatten = "abcde".toList ∧
      (∀ l ∈ chunks.dropLast, l.length = (2 : Int).toNat) ∧
      chunk_text ([] : Text) 2 = Except.ok [] :=
  chunk_text_spec "abcde".toList 2 (by decide)

/-- C10: for every text and strictly negative chunk size, `chunk_text`
returns the empty list without raising any error. -/
theorem chunk_text_neg (text : Text) (chunk_size : Int) (hneg : chunk_size < 0) :
    chunk_text text chunk_size = Except.ok [] := by
  have h0 : ¬ chunk_size = 0 := by omega
  simp [chunk_text, h0, hneg]

/-- Witness for C10 at the text "xy" with chunk size -2. -/
theorem chunk_text_neg_witness :
    chunk_text "xy".toList (-2) = Except.ok [] :=
  chunk_text_neg "xy".toList (-2) (by decide)

/-- C7 counterexample: at chunk size -1 (which is ≤ 0) on the text "abc",
`chunk_text` does not fail at all: it returns the empty list. -/
theorem chunk_text_nonpos_counterexample :
    chunk_text "abc".toList (-1) = Except.ok [] := by
  rfl

/-- C7 amended: a chunk size of exactly 0 fails with the `ValueError` raised
by `range` (not a dedicated InvalidArgument error), and a strictly negative
chunk size does not fail: it returns the empty list. -/
theorem chunk_text_nonpos_amended (text : Text) (chunk_size : Int) (hle : chunk_size ≤ 0) :
    (chunk_size = 0 →
      chunk_text text chunk_size =
        Except.error (PyError.valueError "range() arg 3 must not be zero")) ∧
    (chunk_size < 0 → chunk_text text chunk_size = Except.ok []) := by
  constructor
  · intro h0
    simp [chunk_text, h0]
  · intro hneg
    have h0 : ¬ chunk_size = 0 := by omega
    simp [chunk_text, h0, hneg]

/-- Witness for the amended C7 at the text "a" with chunk size 0. -/
theorem chunk_text_nonpos_amended_witness :
    chunk_text "a".toList 0 =
      Except.error (PyError.valueError "range() arg 3 must not be zero") :=
  (chunk_text_nonpos_amended "a".toList 0 (by decide)).1 rfl

/-- `company_ticker_map` from the source: a Python dict, whose iteration
order is its fixed insertion order, modelled as an association list. -/
def company_ticker_map : List (Text × Text) :=
  [("microsoft".toList, "MSFT".toList),
   ("apple".toList, "AAPL".toList),
   ("google".toList, "GOOGL".toList),
   ("amazon".toList, "AMZN".toList),
   ("meta".toList, "META".toList),
   ("tesla".toList, "TSLA".toList),
   ("bny".toList, "BK".toList)]

/-- Python `question.lower()`, per character (the company names are ASCII). -/
def py_lower (t : Text) : Text := t.map Char.toLower

/-- `re.search(rf"\x7bname\x7d", hay)` for the literal, regex-metacharacter-free
company names: does `needle` occur as a contiguous substring of `hay`? -/
def containsSub (hay needle : Text) : Bool :=
  hay.tails.any (fun t => List.isPrefixOf needle t)

/-- `get_ticker_from_question` from the source: lowercase the question, scan
the company map in insertion order, return the first (ticker, name) whose
name occurs in the lowercased question, else (None, None). -/
def get_ticker_from_question (question : Text) : Option Text × Option Text :=
  let question_lower := py_lower question
  match company_ticker_map.find? (fun p => containsSub question_lower p.1) with
  | some p => (some p.2, some p.1)
  | none => (none, none)

theorem find?_eq_get_of_earliest {α : Type} (l : List α) (p : α → Bool) (i : Nat)
    (hi : i < l.length) (hp : p (l.get ⟨i, hi⟩) = true)
    (hlt : ∀ j (hj : j < i), p (l.get ⟨j, Nat.lt_trans hj hi⟩) = false) :
    l.find? p = some (l.get ⟨i, hi⟩) := by
  induction l generalizing i with
  | nil => simp at hi
  | cons a t ih =>
    cases i with
    | zero =>
      simp only [List.get] at hp
      simp [List.find?_cons_of_pos, hp]
    | succ n =>
      have ha : p a = false := hlt 0 (Nat.succ_pos n)
      rw [List.find?_cons_of_neg _ (by simp [ha])]
      have hn : n < t.length := Nat.lt_of_succ_lt_succ hi
      exact ih n hn hp (fun j hj => hlt (j + 1) (Nat.succ_lt_succ hj))

/-- C9: subject resolution is case-insensitive substring matching over the
lowercased question, and is deterministic: whenever the name at position `i`
of `company_ticker_map` occurs in the lowercased question and no
earlier-inserted name does, the returned pair is exactly that entry's ticker
and name — regardless of where the names occur inside the question; and the
result depends only on the lowercased question. -/
theorem get_ticker_earliest (question : Text) (i : Nat)
    (hi : i < company_ticker_map.length)
    (hmatch : containsSub (py_lower question) (company_ticker_map.get ⟨i, hi⟩).1 = true)
    (hearlier : ∀ j (hj : j < i),
      containsSub (py_lower question)
        (company_ticker_map.get ⟨j, Nat.lt_trans hj hi⟩).1 = false) :
    get_ticker_from_question question =
      (some (company_ticker_map.get ⟨i, hi⟩).2,
       some (company_ticker_map.get ⟨i, hi⟩).1) ∧
    ∀ q2 : Text, py_lower q2 = py_lower question →
      get_ticker_from_question q2 = get_ticker_from_question question := by
  constructor
  · have hfind := find?_eq_get_of_earliest company_ticker_map
      (fun p => containsSub (py_lower question) p.1) i hi hmatch hearlier
    simp only [get_ticker_from_question, hfind]
  · intro q2 hq2
    simp only [get_ticker_from_question, hq2]

/-- Witness for C9: the question "Does Apple beat Microsoft?" mentions both
apple and microsoft, the latter at a later position in the question text; the
answer is microsoft's ticker, because microsoft was inserted first into the
map. -/
theorem get_ticker_earliest_witness :
    get_ticker_from_question "Does Apple beat Microsoft?".toList =
      (some "MSFT".toList, some "microsoft".toList) := by
  have h := get_ticker_earliest "Does Apple beat Microsoft?".toList 0
    (by decide) (by decide)
    (fun j hj => absurd hj (Nat.not_lt_zero j))
  exact h.1

/-- `build_rag_corpus` chunking and flattening from the source, over the
values returned by the two fetch collaborators, with the chunk size of
`chunk_text` as an explicit parameter (the source passes its default, 300):
chunk the summary, chunk each news article independently, flatten, and
return summary chunks followed by the flattened news chunks. -/
def build_rag_corpus_with (chunk_size : Int) (summary : Text)
    (news_articles : List Text) : Except PyError (List Text) := do
  let summary_chunks ← chunk_text summary chunk_size
  let news_chunks ← news_articles.mapM (fun a => chunk_text a chunk_size)
  pure (summary_chunks ++ news_chunks.flatten)

theorem mapM_except_ok {α β : Type} (f : α → Except PyError β) (g : α → β)
    (h : ∀ a, f a = Except.ok (g a)) (l : List α) :
    l.mapM f = Except.ok (l.map g) := by
  induction l with
  | nil => rfl
  | cons a t ih =>
    rw [List.mapM_cons, h a, ih]
    rfl

theorem chunk_text_ok (chunk_size : Int) (hpos : 0 < chunk_size) (t : Text) :
    chunk_text t chunk_size =
      Except.ok (chunk_text_pos (chunk_size.toNat - 1) t) := by
  have h0 : ¬ chunk_size = 0 := by omega
  have h1 : ¬ chunk_size < 0 := by omega
  simp [chunk_text, h0, h1]

/-- C2: for every summary, every list of news items and every positive chunk
size, the corpus is exactly the summary's chunks in order followed by each
item's chunks, items in order and chunks within an item in order; an item
with no chunks (the empty text) contributes nothing; and on summary "AB" and
items ["CD", "EF"] with chunk size 1 the texts come out as
["A","B","C","D","E","F"]. -/
theorem build_rag_corpus_spec (chunk_size : Int) (hpos : 0 < chunk_size)
    (summary : Text) (items : List Text) :
    build_rag_corpus_with chunk_size summary items =
      Except.ok (chunk_text_pos (chunk_size.toNat - 1) summary ++
        (items.map (chunk_text_pos (chunk_size.toNat - 1))).flatten) ∧
    chunk_text summary chunk_size =
      Except.ok (chunk_text_pos (chunk_size.toNat - 1) summary) ∧
    chunk_text_pos (chunk_size.toNat - 1) [] = [] ∧
    build_rag_corpus_with 1 "AB".toList ["CD".toList, "EF".toList] =
      Except.ok ["A".toList, "B".toList, "C".toList, "D".toList,
        "E".toList, "F".toList] := by
  refine ⟨?_, chunk_text_ok chunk_size hpos summary, chunk_text_pos_nil _, ?_⟩
  swap
  · simp [build_rag_corpus_with, chunk_text, chunk_text_pos, List.mapM.loop,
      bind, Except.bind, pure, Except.pure, Functor.map, Except.map]
  rw [build_rag_corpus_with, chunk_text_ok chunk_size hpos summary,
    mapM_except_ok _ _ (chunk_text_ok chunk_size hpos) items]
  rfl

/-- Witness for C2 at chunk size 2, summary "abc" and items ["", "wxyz"]. -/
theorem build_rag_corpus_spec_witness :
    build_rag_corpus_with 2 "abc".toList [([] : Text), "wxyz".toList] =
      Except.ok (chunk_text_pos ((2 : Int).toNat - 1) "abc".toList ++
        ([([] : Text), "wxyz".toList].map
          (chunk_text_pos ((2 : Int).toNat - 1))).flatten) ∧
    chunk_text "abc".toList 2 =
      Except.ok (chunk_text_pos ((2 : Int).toNat - 1) "abc".toList) ∧
    chunk_text_pos ((2 : Int).toNat - 1) [] = [] ∧
    build_rag_corpus_with 1 "AB".toList ["CD".toList, "EF".toList] =
      Except.ok ["A".toList, "B".toList, "C".toList, "D".toList,
        "E".toList, "F".toList] :=
  build_rag_corpus_spec 2 (by decide) "abc".toList [([] : Text), "wxyz".toList]

/-- Modelled from the spec: squared Euclidean ("L2") distance between two
embeddings, the metric of the faiss `IndexFlatL2` used by the source; the
faiss library itself is external and its code is not part of this
repository.  Embedding coordinates are modelled as integers. -/
def sqDist (u v : List Int) : Int :=
  (List.zipWith (fun a b => (a - b) * (a - b)) u v).sum

/-- Modelled from the spec: pair every stored embedding with its 0-based
insertion position and its squared distance to the query. -/
def score (q : List Int) : Nat → List (List Int) → List (Nat × Int)
  | _, [] => []
  | i, e :: es => (i, sqDist q e) :: score q (i + 1) es

/-- Modelled from the spec: the search ordering — ascending distance, ties
broken by ascending insertion position. -/
def le_pair (a b : Nat × Int) : Bool :=
  decide (a.2 < b.2 ∨ (a.2 = b.2 ∧ a.1 ≤ b.1))

/-- Modelled from the spec: `index.search(query, k)` of the faiss
`IndexFlatL2` as the spec's reference algorithm — exact brute-force scan,
sort ascending by squared distance with ties broken by ascending insertion
position, return the first `k` (position, distance) pairs. -/
def vi_search (index : List (List Int)) (q : List Int) (k : Nat) : List (Nat × Int) :=
  ((score q 0 index).mergeSort le_pair).take k

theorem le_pair_trans (a b c : Nat × Int)
    (hab : le_pair a b = true) (hbc : le_pair b c = true) : le_pair a c = true := by
  simp only [le_pair, decide_eq_true_eq] at *
  omega

theorem le_pair_total (a b : Nat × Int) : (le_pair a b || le_pair b a) = true := by
  simp only [le_pair, Bool.or_eq_true, decide_eq_true_eq]
  omega

theorem score_length (q : List Int) (i : Nat) (l : List (List Int)) :
    (score q i l).length = l.length := by
  induction l generalizing i with
  | nil => rfl
  | cons e es ih => simp [score, ih]

theorem score_mem (q : List Int) (i : Nat) (l : List (List Int)) :
    ∀ p ∈ score q i l, i ≤ p.1 ∧ p.1 - i < l.length ∧
      p.2 = sqDist q (l.getD (p.1 - i) []) := by
  induction l generalizing i with
  | nil => intro p hp; simp [score] at hp
  | cons e es ih =>
    intro p hp
    rw [score] at hp
    rcases List.mem_cons.mp hp with h | h
    · subst h
      simp
    · have := ih (i + 1) p h
      have h1 : i + 1 ≤ p.1 := this.1
      have h2 : p.1 - (i + 1) < es.length := this.2.1
      have h3 : p.2 = sqDist q (es.getD (p.1 - (i + 1)) []) := this.2.2
      refine ⟨by omega, by simp; omega, ?_⟩
      have hidx : p.1 - i = (p.1 - (i + 1)) + 1 := by omega
      rw [hidx]
      simpa using h3

theorem score_map_fst (q : List Int) (i : Nat) (l : List (List Int)) :
    (score q i l).map Prod.fst = List.range' i l.length := by
  induction l generalizing i with
  | nil => rfl
  | cons e es ih => simp [score, List.range'_succ, ih]

theorem vi_search_length (index : List (List Int)) (q : List Int) (k : Nat) :
    (vi_search index q k).length = min k index.length := by
  simp [vi_search, List.length_take, score_length]

theorem vi_search_sorted (index : List (List Int)) (q : List Int) (k : Nat) :
    List.Pairwise (fun a b : Nat × Int =>
      a.2 < b.2 ∨ (a.2 = b.2 ∧ a.1 < b.1)) (vi_search index q k) := by
  have hsorted : List.Pairwise (fun a b => le_pair a b = true)
      ((score q 0 index).mergeSort le_pair) :=
    List.sorted_mergeSort le_pair_trans le_pair_total (score q 0 index)
  have hperm : List.Perm ((score q 0 index).mergeSort le_pair) (score q 0 index) :=
    List.mergeSort_perm (score q 0 index) le_pair
  have hnodup : (((score q 0 index).mergeSort le_pair).map Prod.fst).Nodup := by
    have h1 : ((score q 0 index).map Prod.fst).Nodup := by
      rw [score_map_fst]
      exact List.nodup_range' 0 index.length
    exact (List.Perm.nodup_iff (List.Perm.map Prod.fst hperm)).mpr h1
  have hne : List.Pairwise (fun a b : Nat × Int => a.1 ≠ b.1)
      ((score q 0 index).mergeSort le_pair) :=
    (List.pairwise_map.mp hnodup)
  have hstrict : List.Pairwise (fun a b : Nat × Int =>
      a.2 < b.2 ∨ (a.2 = b.2 ∧ a.1 < b.1))
      ((score q 0 index).mergeSort le_pair) := by
    refine (hsorted.and hne).imp ?_
    intro a b hab
    have h1 := hab.1
    have h2 := hab.2
    simp only [le_pair, decide_eq_true_eq] at h1
    omega
  exact hstrict.sublist (List.take_sublist k _)

theorem vi_search_mem_valid (index : List (List Int)) (q : List Int) (k : Nat) :
    ∀ p ∈ vi_search index q k,
      p.1 < index.length ∧ p.2 = sqDist q (index.getD p.1 []) := by
  intro p hp
  have hmem : p ∈ score q 0 index := by
    have h1 : p ∈ (score q 0 index).mergeSort le_pair :=
      List.mem_of_mem_take hp
    exact (List.mem_mergeSort).mp h1
  have := score_mem q 0 index p hmem
  refine ⟨by omega, ?_⟩
  have h3 := this.2.2
  simpa using h3

/-- C3: modelled from the spec — for every index, query and positive `k`,
the search result has length exactly `min k size`, is sorted strictly
ascending by squared Euclidean distance with ties broken by ascending
insertion position, every returned pair is a valid position with its true
distance to the query, searching an empty index returns the empty sequence,
and an index smaller than `k` yields exactly `size` results. -/
theorem vi_search_spec (index : List (List Int)) (q : List Int) (k : Nat)
    (hk : 0 < k) :
    (vi_search index q k).length = min k index.length ∧
    List.Pairwise (fun a b : Nat × Int =>
      a.2 < b.2 ∨ (a.2 = b.2 ∧ a.1 < b.1)) (vi_search index q k) ∧
    (∀ p ∈ vi_search index q k,
      p.1 < index.length ∧ p.2 = sqDist q (index.getD p.1 [])) ∧
    vi_search ([] : List (List Int)) q k = [] ∧
    (index.length < k → (vi_search index q k).length = index.length) := by
  have hlen := vi_search_length index q k
  exact ⟨hlen, vi_search_sorted index q k, vi_search_mem_valid index q k,
    by simp [vi_search, score], by omega⟩

/-- Witness for C3 at the index [[0,1],[1,0],[0,0]], the query [0,0] and
k = 2. -/
theorem vi_search_spec_witness :
    (vi_search [[0,1],[1,0],[0,0]] [0,0] 2).length = min 2 ([[0,1],[1,0],[0,0]] : List (List Int)).length ∧
    List.Pairwise (fun a b : Nat × Int =>
      a.2 < b.2 ∨ (a.2 = b.2 ∧ a.1 < b.1)) (vi_search [[0,1],[1,0],[0,0]] [0,0] 2) ∧
    (∀ p ∈ vi_search [[0,1],[1,0],[0,0]] [0,0] 2,
      p.1 < ([[0,1],[1,0],[0,0]] : List (List Int)).length ∧
        p.2 = sqDist [0,0] (([[0,1],[1,0],[0,0]] : List (List Int)).getD p.1 [])) ∧
    vi_search ([] : List (List Int)) [0,0] 2 = [] ∧
    (([[0,1],[1,0],[0,0]] : List (List Int)).length < 2 →
      (vi_search [[0,1],[1,0],[0,0]] [0,0] 2).length =
        ([[0,1],[1,0],[0,0]] : List (List Int)).length) :=
  vi_search_spec [[0,1],[1,0],[0,0]] [0,0] 2 (by decide)

/-- The external collaborators of the pipeline, passed in explicitly:
`get_company_summary` (yfinance), `get_yahoo_finance_news` (feedparser),
`model.encode` of the sentence transformer (applied per text, deterministic),
and the OpenAI chat call including the extraction of the answer text. -/
structure Collaborators where
  fetchSummary : Text → Except PyError Text
  fetchNews : Text → Except PyError (List Text)
  encode : Text → List Int
  generate : Text → Except PyError Text

/-- An observable call to a collaborator, recorded in order. -/
inductive CallEvent where
  | fetchSummaryCall : Text → CallEvent
  | fetchNewsCall : Text → CallEvent
  | encodeCall : List Text → CallEvent
  | generateCall : Text → CallEvent
  deriving DecidableEq

/-- `build_rag_corpus` from the source: fetch the summary, fetch the news,
chunk both at the default chunk size 300 and concatenate; a fetch failure
propagates unchanged.  The second component records the collaborator calls
made. -/
def build_rag_corpus (C : Collaborators) (ticker : Text) :
    Except PyError (List Text) × List CallEvent :=
  match C.fetchSummary ticker with
  | Except.error e => (Except.error e, [CallEvent.fetchSummaryCall ticker])
  | Except.ok summary =>
    match C.fetchNews ticker with
    | Except.error e => (Except.error e,
        [CallEvent.fetchSummaryCall ticker, CallEvent.fetchNewsCall ticker])
    | Except.ok news_articles =>
      (build_rag_corpus_with 300 summary news_articles,
        [CallEvent.fetchSummaryCall ticker, CallEvent.fetchNewsCall ticker])

/-- Python `sep.join(parts)`. -/
def pyJoin (sep : Text) : List Text → Text
  | [] => []
  | [t] => t
  | t :: u :: ts => t ++ sep ++ pyJoin sep (u :: ts)

/-- `retrieve_context` from the source: embed the query, search the index
with k = 3 (the search itself is the spec-modelled faiss `IndexFlatL2`
search), look the returned positions up in the corpus, and join the texts
with newlines. -/
def retrieve_context (corpus : List Text) (index : List (List Int))
    (encode : Text → List Int) (q : Text) : Text :=
  pyJoin ['\n'] ((vi_search index (encode q) 3).map (fun p => corpus.getD p.1 []))

/-- The tail of `run_rag_with_news` after the corpus has been built: embed
the corpus, fail with `IndexError` on `embeddings[0]` when there are no
embeddings, otherwise build the index, retrieve context, assemble the prompt
and call the generation collaborator, whose result (answer or error) is
returned as is. -/
def run_with_corpus (C : Collaborators) (question : Text) (corpus : List Text) :
    Except PyError Text × List CallEvent :=
  match corpus.map C.encode with
  | [] => (Except.error (PyError.indexError "list index out of range"),
      [CallEvent.encodeCall corpus])
  | e0 :: es =>
    let context := retrieve_context corpus (e0 :: es) C.encode question
    let prompt := "Context:\n".toList ++ context ++ "\n\nQuestion: ".toList ++ question
    (C.generate prompt,
      [CallEvent.encodeCall corpus, CallEvent.encodeCall [question],
       CallEvent.generateCall prompt])

/-- `run_rag_with_news` from the source: resolve the ticker; with no ticker
return the apology string having called no collaborator; otherwise build the
corpus (propagating fetch failures) and continue with embedding, retrieval
and generation. -/
def run_rag_with_news (C : Collaborators) (question : Text) :
    Except PyError Text × List CallEvent :=
  match get_ticker_from_question question with
  | (none, _) =>
      (Except.ok "Sorry, I couldn\x27t identify a company in your question.".toList, [])
  | (some ticker, _) =>
    match build_rag_corpus C ticker with
    | (Except.error e, tr) => (Except.error e, tr)
    | (Except.ok corpus, tr) =>
      ((run_with_corpus C question corpus).1, tr ++ (run_with_corpus C question corpus).2)

/-- C5: a question in which no known company name is found makes the
orchestrator return the apology string as a normal result — not an error —
and no collaborator (summary fetcher, news fetcher, embedder or generator)
is ever called. -/
theorem no_subject_spec (C : Collaborators) (question : Text)
    (h : (get_ticker_from_question question).1 = none) :
    run_rag_with_news C question =
      (Except.ok "Sorry, I couldn\x27t identify a company in your question.".toList,
        ([] : List CallEvent)) := by
  rw [run_rag_with_news]
  rcases hq : get_ticker_from_question question with ⟨o1, o2⟩
  rw [hq] at h
  simp only at h
  subst h
  simp

/-- Witness for C5 at the question "hello world". -/
theorem no_subject_spec_witness :
    run_rag_with_news
        ⟨fun _ => Except.ok [], fun _ => Except.ok [], fun _ => [0],
         fun _ => Except.ok []⟩ "hello world".toList =
      (Except.ok "Sorry, I couldn\x27t identify a company in your question.".toList,
        ([] : List CallEvent)) :=
  no_subject_spec _ "hello world".toList (by decide)

/-- The prompt assembled by the source for a given corpus:
`f"Context:\n{context}\n\nQuestion: {question}"`. -/
def prompt_of (C : Collaborators) (question : Text) (corpus : List Text) : Text :=
  "Context:\n".toList ++ retrieve_context corpus (corpus.map C.encode) C.encode question ++
    "\n\nQuestion: ".toList ++ question

theorem run_after_fetch_error (C : Collaborators) (question ticker name : Text)
    (e : PyError)
    (hq : get_ticker_from_question question = (some ticker, some name))
    (hs : C.fetchSummary ticker = Except.error e) :
    run_rag_with_news C question =
      (Except.error e, [CallEvent.fetchSummaryCall ticker]) := by
  rw [run_rag_with_news, hq]
  simp only [build_rag_corpus, hs]

theorem run_after_news_error (C : Collaborators) (question ticker name summary : Text)
    (e : PyError)
    (hq : get_ticker_from_question question = (some ticker, some name))
    (hs : C.fetchSummary ticker = Except.ok summary)
    (hn : C.fetchNews ticker = Except.error e) :
    run_rag_with_news C question =
      (Except.error e,
       [CallEvent.fetchSummaryCall ticker, CallEvent.fetchNewsCall ticker]) := by
  rw [run_rag_with_news, hq]
  simp only [build_rag_corpus, hs, hn]

theorem run_empty_embeddings (C : Collaborators) (question ticker name summary : Text)
    (items : List Text)
    (hq : get_ticker_from_question question = (some ticker, some name))
    (hs : C.fetchSummary ticker = Except.ok summary)
    (hn : C.fetchNews ticker = Except.ok items)
    (hempty : build_rag_corpus_with 300 summary items = Except.ok []) :
    run_rag_with_news C question =
      (Except.error (PyError.indexError "list index out of range"),
       [CallEvent.fetchSummaryCall ticker, CallEvent.fetchNewsCall ticker,
        CallEvent.encodeCall []]) := by
  rw [run_rag_with_news, hq]
  simp only [build_rag_corpus, hs, hn, hempty]
  simp [run_with_corpus]

theorem run_reaches_generate (C : Collaborators) (question ticker name summary : Text)
    (items : List Text) (corpus : List Text)
    (hq : get_ticker_from_question question = (some ticker, some name))
    (hs : C.fetchSummary ticker = Except.ok summary)
    (hn : C.fetchNews ticker = Except.ok items)
    (hcorp : build_rag_corpus_with 300 summary items = Except.ok corpus)
    (hne : corpus ≠ []) :
    run_rag_with_news C question =
      (C.generate (prompt_of C question corpus),
       [CallEvent.fetchSummaryCall ticker, CallEvent.fetchNewsCall ticker,
        CallEvent.encodeCall corpus, CallEvent.encodeCall [question],
        CallEvent.generateCall (prompt_of C question corpus)]) := by
  obtain ⟨c, cs, rfl⟩ := List.exists_cons_of_ne_nil hne
  rw [run_rag_with_news, hq]
  simp only [build_rag_corpus, hs, hn, hcorp]
  simp [run_with_corpus, prompt_of]

/-- C4: whenever retrieval succeeds (a company is found, both fetches
succeed and the corpus is non-empty), the generation collaborator is handed
exactly the prompt made of a "Context" section holding the retrieved
fragments' texts joined by newlines in the search-result order — which is
ascending by distance with ties broken by insertion position — followed by a
"Question" section holding the original question verbatim. -/
theorem prompt_spec (C : Collaborators) (question ticker name summary : Text)
    (items : List Text) (corpus : List Text)
    (hq : get_ticker_from_question question = (some ticker, some name))
    (hs : C.fetchSummary ticker = Except.ok summary)
    (hn : C.fetchNews ticker = Except.ok items)
    (hcorp : build_rag_corpus_with 300 summary items = Except.ok corpus)
    (hne : corpus ≠ []) :
    List.Pairwise (fun a b : Nat × Int =>
      a.2 < b.2 ∨ (a.2 = b.2 ∧ a.1 < b.1))
      (vi_search (corpus.map C.encode) (C.encode question) 3) ∧
    (run_rag_with_news C question).2 =
      [CallEvent.fetchSummaryCall ticker, CallEvent.fetchNewsCall ticker,
       CallEvent.encodeCall corpus, CallEvent.encodeCall [question],
       CallEvent.generateCall ("Context:\n".toList ++
         pyJoin ['\n'] ((vi_search (corpus.map C.encode) (C.encode question) 3).map
           (fun p => corpus.getD p.1 [])) ++
         "\n\nQuestion: ".toList ++ question)] := by
  refine ⟨vi_search_sorted _ _ _, ?_⟩
  rw [run_reaches_generate C question ticker name summary items corpus hq hs hn hcorp hne]
  simp [prompt_of, retrieve_context]

/-- A concrete collaborator set for witnesses: a three-character summary,
one news item, the embedder sending a text to the one-dimensional vector of
its length, and a generator that always answers "fine". -/
def demoCollab : Collaborators :=
  ⟨fun _ => Except.ok "sum".toList,
   fun _ => Except.ok ["news one".toList],
   fun t => [Int.ofNat t.length],
   fun _ => Except.ok "fine".toList⟩

/-- Witness for C4 with `demoCollab` on the question "apple news". -/
theorem prompt_spec_witness :
    List.Pairwise (fun a b : Nat × Int =>
      a.2 < b.2 ∨ (a.2 = b.2 ∧ a.1 < b.1))
      (vi_search ((["sum".toList, "news one".toList] : List Text).map demoCollab.encode)
        (demoCollab.encode "apple news".toList) 3) ∧
    (run_rag_with_news demoCollab "apple news".toList).2 =
      [CallEvent.fetchSummaryCall "AAPL".toList, CallEvent.fetchNewsCall "AAPL".toList,
       CallEvent.encodeCall ["sum".toList, "news one".toList],
       CallEvent.encodeCall ["apple news".toList],
       CallEvent.generateCall ("Context:\n".toList ++
         pyJoin ['\n']
           ((vi_search ((["sum".toList, "news one".toList] : List Text).map demoCollab.encode)
             (demoCollab.encode "apple news".toList) 3).map
           (fun p => (["sum".toList, "news one".toList] : List Text).getD p.1 [])) ++
         "\n\nQuestion: ".toList ++ "apple news".toList)] :=
  prompt_spec demoCollab "apple news".toList "AAPL".toList "apple".toList
    "sum".toList ["news one".toList] ["sum".toList, "news one".toList]
    (by decide) rfl rfl
    (by simp [build_rag_corpus_with, chunk_text, chunk_text_pos, List.mapM.loop,
      bind, Except.bind, pure, Except.pure, Functor.map, Except.map])
    (by decide)

/-- A collaborator set whose fetchers both return empty data, so the corpus
has zero fragments. -/
def emptyCollab : Collaborators :=
  ⟨fun _ => Except.ok [],
   fun _ => Except.ok [],
   fun t => [Int.ofNat t.length],
   fun _ => Except.ok "fine".toList⟩

/-- C6 counterexample: on the question "apple?" with fetchers returning
empty data the corpus has zero fragments, and the pipeline fails with the
`IndexError` raised by `embeddings[0]` — an unrelated, untyped error — not
with a typed EmptyCorpus failure (no such failure exists in the code). -/
theorem empty_corpus_counterexample :
    (run_rag_with_news emptyCollab "apple?".toList).1 =
      Except.error (PyError.indexError "list index out of range") := by
  have h := run_empty_embeddings emptyCollab "apple?".toList "AAPL".toList
    "apple".toList [] [] (by decide) rfl rfl
    (by simp [build_rag_corpus_with, chunk_text, chunk_text_pos, List.mapM.loop,
      bind, Except.bind, pure, Except.pure, Functor.map, Except.map])
  rw [h]

/-- C6 amended: for every corpus with zero fragments the pipeline does fail,
but not with a typed EmptyCorpus error: it crashes with the `IndexError`
raised when `embeddings[0]` is read from the empty embedding list, an error
unrelated to any corpus-emptiness taxonomy. -/
theorem empty_corpus_amended (C : Collaborators) (question ticker name summary : Text)
    (items : List Text)
    (hq : get_ticker_from_question question = (some ticker, some name))
    (hs : C.fetchSummary ticker = Except.ok summary)
    (hn : C.fetchNews ticker = Except.ok items)
    (hempty : build_rag_corpus_with 300 summary items = Except.ok []) :
    (run_rag_with_news C question).1 =
      Except.error (PyError.indexError "list index out of range") := by
  rw [run_empty_embeddings C question ticker name summary items hq hs hn hempty]

/-- Witness for the amended C6: `emptyCollab` on the question "is bny up". -/
theorem empty_corpus_amended_witness :
    (run_rag_with_news emptyCollab "is bny up".toList).1 =
      Except.error (PyError.indexError "list index out of range") :=
  empty_corpus_amended emptyCollab "is bny up".toList "BK".toList "bny".toList
    [] [] (by decide) rfl rfl
    (by simp [build_rag_corpus_with, chunk_text, chunk_text_pos, List.mapM.loop,
      bind, Except.bind, pure, Except.pure, Functor.map, Except.map])

/-- A collaborator set whose summary fetcher raises an error. -/
def fetchFailCollab : Collaborators :=
  ⟨fun _ => Except.error (PyError.valueError "boom"),
   fun _ => Except.ok [],
   fun t => [Int.ofNat t.length],
   fun _ => Except.ok "fine".toList⟩

/-- A collaborator set whose fetchers succeed but whose generation call
raises the same error as `fetchFailCollab`'s summary fetcher. -/
def genFailCollab : Collaborators :=
  ⟨fun _ => Except.ok "sum".toList,
   fun _ => Except.ok [],
   fun t => [Int.ofNat t.length],
   fun _ => Except.error (PyError.valueError "boom")⟩

/-- C8 counterexample: a summary-fetch failure does propagate, but the
orchestrator maps it to no SourceUnavailable reason: on the question
"did apple win", a run whose summary fetch raises the error and a run whose
fetches succeed but whose generation call raises the same error produce the
very same user-facing outcome, so the two failure reasons are not
distinguishable from the result. -/
theorem source_failure_counterexample :
    (run_rag_with_news fetchFailCollab "did apple win".toList).1 =
      Except.error (PyError.valueError "boom") ∧
    (run_rag_with_news fetchFailCollab "did apple win".toList).1 =
      (run_rag_with_news genFailCollab "did apple win".toList).1 := by
  have h1 := run_after_fetch_error fetchFailCollab "did apple win".toList
    "AAPL".toList "apple".toList (PyError.valueError "boom") (by decide) rfl
  have h2 := run_reaches_generate genFailCollab "did apple win".toList
    "AAPL".toList "apple".toList "sum".toList [] ["sum".toList]
    (by decide) rfl rfl
    (by simp [build_rag_corpus_with, chunk_text, chunk_text_pos, List.mapM.loop,
      bind, Except.bind, pure, Except.pure, Functor.map, Except.map])
    (by decide)
  rw [h1, h2]
  exact ⟨rfl, rfl⟩

/-- C8 amended: every failure of the summary fetcher or of the news fetcher
propagates unchanged through `build_rag_corpus` (no empty-text substitution)
and out of `run_rag_with_news` as the run's outcome — distinguishable from
the no-subject apology, which is a normal return — but the orchestrator
performs no mapping to a dedicated SourceUnavailable reason: the raw error
is the outcome. -/
theorem source_failure_amended (C : Collaborators) (question ticker name : Text)
    (e : PyError)
    (hq : get_ticker_from_question question = (some ticker, some name)) :
    (C.fetchSummary ticker = Except.error e →
      build_rag_corpus C ticker = (Except.error e, [CallEvent.fetchSummaryCall ticker]) ∧
      run_rag_with_news C question = (Except.error e, [CallEvent.fetchSummaryCall ticker])) ∧
    (∀ summary, C.fetchSummary ticker = Except.ok summary →
      C.fetchNews ticker = Except.error e →
      build_rag_corpus C ticker =
        (Except.error e,
         [CallEvent.fetchSummaryCall ticker, CallEvent.fetchNewsCall ticker]) ∧
      run_rag_with_news C question =
        (Except.error e,
         [CallEvent.fetchSummaryCall ticker, CallEvent.fetchNewsCall ticker])) := by
  constructor
  · intro hs
    refine ⟨?_, run_after_fetch_error C question ticker name e hq hs⟩
    simp only [build_rag_corpus, hs]
  · intro summary hs hn
    refine ⟨?_, run_after_news_error C question ticker name summary e hq hs hn⟩
    simp only [build_rag_corpus, hs, hn]

/-- Witness for the amended C8: `fetchFailCollab` on "did tesla move". -/
theorem source_failure_amended_witness :
    build_rag_corpus fetchFailCollab "TSLA".toList =
      (Except.error (PyError.valueError "boom"),
       [CallEvent.fetchSummaryCall "TSLA".toList]) ∧
    run_rag_with_news fetchFailCollab "did tesla move".toList =
      (Except.error (PyError.valueError "boom"),
       [CallEvent.fetchSummaryCall "TSLA".toList]) :=
  (source_failure_amended fetchFailCollab "did tesla move".toList "TSLA".toList
    "tesla".toList (PyError.valueError "boom") (by decide)).1 rfl

end FinanceRag
